import Mathlib

/-!
Verification development for the ts_neurointelligence repository.

The repository has three scripts:
* `src/unnamed/part_001` — the raw ONNX variant: `generate` encodes a prompt,
  builds `input_ids` / `attention_mask` / `position_ids` feeds, runs the ONNX
  session once, takes the greedy argmax of the last-position logits and decodes
  that single token.
* `src/chat.js` and `src/unnamed/part_000` — variants that delegate generation
  to a library `model.generate` call and post-process its output with
  `outputs[0].slice(inputs.input_ids.size[1])`; in the library both files use,
  `size` is the scalar element count (the shape is `dims`), so `size[1]` is
  `undefined` and the slice keeps the whole prompt-inclusive sequence.
* `src/unnamed/part_000` additionally extracts a session embedding from the
  first 512 samples of a simulated signal.

Logits are modelled as rational numbers (the scripts' finite floating-point
values), token ids as natural numbers.  The design-level decode loop of the
specification (§4.2), which the scripts delegate to an external runtime, is
modelled separately below from the specification text.
-/

namespace NeuroChat

/-- An ONNX output tensor as consumed by `generate` in part_001: the flat
`data` array and the `dims` shape vector (`[1, positions, vocabSize]`). -/
structure OrtOutput where
  data : List ℚ
  dims : List Nat

/-- The feeds built in part_001 `generate` (lines 48–60): `input_ids` is the
token list, `attention_mask` is `new Array(tokens.length).fill(1)`, and
`position_ids` is `tokens.map((_, i) => i)`. -/
structure Feeds where
  input_ids : List Nat
  attention_mask : List Nat
  position_ids : List Nat

/-- Embedding of the feed construction in part_001 `generate` lines 49–60. -/
def buildFeeds (tokens : List Nat) : Feeds where
  input_ids := tokens
  attention_mask := List.replicate tokens.length 1
  position_ids := List.mapIdx (fun i _ => i) tokens

/-- JavaScript `array.slice(-v)`: the last `v` elements, except that `v = 0`
yields the whole array (in JS, `slice(-0)` is `slice(0)`). -/
def sliceNeg (data : List ℚ) (v : Nat) : List ℚ :=
  if v = 0 then data else data.drop (data.length - v)

/-- Comparison against the running maximum in the argmax scan of part_001
lines 70–77, where `none` plays the role of the initial `-Infinity`. -/
def gtOpt (v : ℚ) : Option ℚ → Bool
  | none => true
  | some m => decide (m < v)

/-- The argmax scan of part_001 `generate` lines 70–77: walk the logits left
to right keeping the running maximum (initially `-Infinity`, modelled `none`)
and its index (initially `-1`), updating on a strict improvement only. -/
def argmaxLoop : List ℚ → Nat → Option ℚ → Int → Int
  | [], _, _, maxIndex => maxIndex
  | v :: rest, i, mx, maxIndex =>
    if gtOpt v mx then argmaxLoop rest (i + 1) (some v) (i : Int)
    else argmaxLoop rest (i + 1) mx maxIndex

/-- Greedy decoding of part_001: index of the maximal logit, first (lowest
index) occurrence winning ties, `-1` on an empty row. -/
def greedyArgmax (logits : List ℚ) : Int := argmaxLoop logits 0 none (-1)

/-- Embedding of part_001 `generate` (lines 46–82): build the feeds from the
encoded prompt, run the session once, read `vocabSize` from `dims[2]`, slice
the last-position logits and take their greedy argmax.  The second component
records every token sequence fed to the session (here: exactly one run). -/
def generateRaw (run : Feeds → OrtOutput) (tokens : List Nat) :
    Int × List (List Nat) :=
  let feeds := buildFeeds tokens
  let output := run feeds
  let vocabSize := output.dims.getD 2 0
  let lastLogits := sliceNeg output.data vocabSize
  (greedyArgmax lastLogits, [feeds.input_ids])

/-- The argmax scan either never improves on the running maximum (and returns
the incoming index), or returns the offset of the first occurrence of the
maximal element among those strictly above the incoming maximum. -/
lemma argmaxLoop_spec (l : List ℚ) : ∀ (i : Nat) (mx : Option ℚ) (j : Int),
    (argmaxLoop l i mx j = j ∧ ∀ k, k < l.length → gtOpt (l.getD k 0) mx = false)
    ∨ (∃ p, p < l.length ∧ argmaxLoop l i mx j = ((i + p : Nat) : Int)
        ∧ gtOpt (l.getD p 0) mx = true
        ∧ (∀ k, k < l.length → l.getD k 0 ≤ l.getD p 0)
        ∧ (∀ k, k < p → l.getD k 0 < l.getD p 0)) := by
  induction l with
  | nil =>
    intro i mx j
    exact Or.inl ⟨rfl, fun k hk => absurd hk (Nat.not_lt_zero k)⟩
  | cons v rest ih =>
    intro i mx j
    by_cases h : gtOpt v mx = true
    · have hstep : argmaxLoop (v :: rest) i mx j
          = argmaxLoop rest (i + 1) (some v) (i : Int) := by
        simp [argmaxLoop, h]
      rcases ih (i + 1) (some v) (i : Int) with ⟨he, hall⟩ | ⟨p, hp, he, hgt, hmax, hfirst⟩
      · refine Or.inr ⟨0, Nat.succ_pos _, ?_, ?_, ?_, ?_⟩
        · rw [hstep, he]; simp
        · simpa using h
        · intro k hk
          cases k with
          | zero => simp
          | succ q =>
            have hq : q < rest.length := Nat.lt_of_succ_lt_succ hk
            have hle : rest.getD q 0 ≤ v := by
              have := hall q hq
              simp only [gtOpt, decide_eq_false_iff_not, not_lt] at this
              exact this
            simpa [List.getD_cons_succ, List.getD_cons_zero] using hle
        · intro k hk
          exact absurd hk (Nat.not_lt_zero k)
      · refine Or.inr ⟨p + 1, Nat.succ_lt_succ hp, ?_, ?_, ?_, ?_⟩
        · rw [hstep, he]; omega
        · have hvp : v < rest.getD p 0 := by
            simpa [gtOpt] using hgt
          cases mx with
          | none => simp [gtOpt]
          | some m =>
            have hmv : m < v := by simpa [gtOpt] using h
            simp only [List.getD_cons_succ, gtOpt, decide_eq_true_eq]
            exact lt_trans hmv hvp
        · intro k hk
          have hvp : v < rest.getD p 0 := by simpa [gtOpt] using hgt
          cases k with
          | zero =>
            simpa [List.getD_cons_zero, List.getD_cons_succ] using le_of_lt hvp
          | succ q =>
            have hq : q < rest.length := Nat.lt_of_succ_lt_succ hk
            simpa [List.getD_cons_succ] using hmax q hq
        · intro k hk
          have hvp : v < rest.getD p 0 := by simpa [gtOpt] using hgt
          cases k with
          | zero => simpa [List.getD_cons_zero, List.getD_cons_succ] using hvp
          | succ q =>
            have hq : q < p := Nat.lt_of_succ_lt_succ hk
            simpa [List.getD_cons_succ] using hfirst q hq
    · have hfalse : gtOpt v mx = false := by
        revert h; cases gtOpt v mx <;> simp
      obtain ⟨m, rfl⟩ : ∃ m, mx = some m := by
        cases mx with
        | none => simp [gtOpt] at hfalse
        | some m => exact ⟨m, rfl⟩
      have hvm : v ≤ m := by
        simpa [gtOpt, decide_eq_false_iff_not, not_lt] using hfalse
      have hstep : argmaxLoop (v :: rest) i (some m) j
          = argmaxLoop rest (i + 1) (some m) j := by
        simp [argmaxLoop, hfalse]
      rcases ih (i + 1) (some m) j with ⟨he, hall⟩ | ⟨p, hp, he, hgt, hmax, hfirst⟩
      · refine Or.inl ⟨by rw [hstep, he], ?_⟩
        intro k hk
        cases k with
        | zero => simpa using hfalse
        | succ q => simpa [List.getD_cons_succ] using hall q (Nat.lt_of_succ_lt_succ hk)
      · have hmp : m < rest.getD p 0 := by simpa [gtOpt] using hgt
        refine Or.inr ⟨p + 1, Nat.succ_lt_succ hp, by rw [hstep, he]; omega, ?_, ?_, ?_⟩
        · simp only [List.getD_cons_succ, gtOpt, decide_eq_true_eq]
          exact hmp
        · intro k hk
          cases k with
          | zero =>
            simpa [List.getD_cons_zero, List.getD_cons_succ] using
              le_of_lt (lt_of_le_of_lt hvm hmp)
          | succ q =>
            simpa [List.getD_cons_succ] using hmax q (Nat.lt_of_succ_lt_succ hk)
        · intro k hk
          cases k with
          | zero =>
            simpa [List.getD_cons_zero, List.getD_cons_succ] using lt_of_le_of_lt hvm hmp
          | succ q =>
            simpa [List.getD_cons_succ] using hfirst q (Nat.lt_of_succ_lt_succ hk)

/-- On a non-empty row, `greedyArgmax` returns the least index of a maximal
logit: every entry is bounded by the entry there, and every earlier entry is
strictly smaller. -/
lemma greedyArgmax_spec (l : List ℚ) (hne : l ≠ []) :
    ∃ p : Nat, p < l.length ∧ greedyArgmax l = (p : Int) ∧
      (∀ k, k < l.length → l.getD k 0 ≤ l.getD p 0) ∧
      (∀ k, k < p → l.getD k 0 < l.getD p 0) := by
  rcases argmaxLoop_spec l 0 none (-1) with ⟨_, hall⟩ | ⟨p, hp, he, _, hmax, hfirst⟩
  · exfalso
    have hlen : 0 < l.length := List.length_pos.mpr hne
    have := hall 0 hlen
    simp [gtOpt] at this
  · exact ⟨p, hp, by simpa [greedyArgmax] using he, hmax, hfirst⟩

/-- Slicing the last `v` entries of the flattened response recovers the row of
the final position, provided every row has length `v`. -/
lemma sliceNeg_flatten_eq_getLast (rows : List (List ℚ)) (v : Nat) (hv : 0 < v)
    (hlen : ∀ r ∈ rows, r.length = v) (hne : rows ≠ []) :
    sliceNeg rows.flatten v = rows.getLast hne := by
  have hsplit : rows.dropLast ++ [rows.getLast hne] = rows :=
    List.dropLast_append_getLast hne
  have hflat : rows.flatten = rows.dropLast.flatten ++ rows.getLast hne := by
    conv_lhs => rw [← hsplit]
    simp
  have hlast_len : (rows.getLast hne).length = v := hlen _ (List.getLast_mem hne)
  unfold sliceNeg
  rw [if_neg (Nat.pos_iff_ne_zero.mp hv), hflat, List.length_append, hlast_len]
  have harith : rows.dropLast.flatten.length + v - v = rows.dropLast.flatten.length := by
    omega
  rw [harith]
  exact List.drop_left rows.dropLast.flatten (rows.getLast hne)

/-- Claim C3: for every non-empty token sequence of length `n`, the feeds built
by part_001 `generate` have an all-ones attention mask, identity position ids
`0..n-1`, and all three arrays of length `n`. -/
theorem buildFeeds_spec (tokens : List Nat) (_h : tokens ≠ []) :
    (∀ x ∈ (buildFeeds tokens).attention_mask, x = 1) ∧
    (buildFeeds tokens).position_ids = List.range tokens.length ∧
    (buildFeeds tokens).input_ids.length = tokens.length ∧
    (buildFeeds tokens).attention_mask.length = tokens.length ∧
    (buildFeeds tokens).position_ids.length = tokens.length := by
  have hpos : (buildFeeds tokens).position_ids = List.range tokens.length := by
    show List.mapIdx (fun i _ => i) tokens = List.range tokens.length
    rw [List.mapIdx_eq_enum_map]
    have huncurry : (Function.uncurry fun (i : Nat) (_ : Nat) => i)
        = (Prod.fst : Nat × Nat → Nat) := rfl
    rw [huncurry, List.enum_map_fst]
  refine ⟨?_, hpos, rfl, ?_, ?_⟩
  · intro x hx
    exact List.eq_of_mem_replicate hx
  · simp [buildFeeds]
  · rw [hpos, List.length_range]

/-- Claim C3 witness at the concrete prompt `[5, 9, 2]`. -/
theorem buildFeeds_spec_witness :
    ([5, 9, 2] : List Nat) ≠ [] ∧
    ((∀ x ∈ (buildFeeds [5, 9, 2]).attention_mask, x = 1) ∧
      (buildFeeds [5, 9, 2]).position_ids = List.range 3 ∧
      (buildFeeds [5, 9, 2]).input_ids.length = 3 ∧
      (buildFeeds [5, 9, 2]).attention_mask.length = 3 ∧
      (buildFeeds [5, 9, 2]).position_ids.length = 3) :=
  ⟨by decide, buildFeeds_spec [5, 9, 2] (by decide)⟩

/-- Claim C2: under the greedy policy of part_001, the selected token id is the
argmax of the logits row at the final sequence position, ties are broken by the
lowest id (every earlier entry is strictly smaller), and only the final
position's row of the response is consumed (two responses agreeing on their
last row select the same token). -/
theorem greedy_argmax_last_row (rows : List (List ℚ)) (v : Nat) (hv : 0 < v)
    (hne : rows ≠ []) (hlen : ∀ r ∈ rows, r.length = v) :
    ∃ j : Nat, greedyArgmax (sliceNeg rows.flatten v) = (j : Int) ∧ j < v ∧
      (∀ k, k < v → (rows.getLast hne).getD k 0 ≤ (rows.getLast hne).getD j 0) ∧
      (∀ k, k < j → (rows.getLast hne).getD k 0 < (rows.getLast hne).getD j 0) ∧
      (∀ (rows2 : List (List ℚ)) (hne2 : rows2 ≠ []),
        (∀ r ∈ rows2, r.length = v) → rows2.getLast hne2 = rows.getLast hne →
        greedyArgmax (sliceNeg rows2.flatten v)
          = greedyArgmax (sliceNeg rows.flatten v)) := by
  have hsl := sliceNeg_flatten_eq_getLast rows v hv hlen hne
  have hlast_len : (rows.getLast hne).length = v := hlen _ (List.getLast_mem hne)
  have hlast_ne : rows.getLast hne ≠ [] := by
    intro hcon
    rw [hcon] at hlast_len
    simp at hlast_len
    omega
  obtain ⟨p, hp, he, hmax, hfirst⟩ := greedyArgmax_spec (rows.getLast hne) hlast_ne
  rw [hlast_len] at hp hmax
  refine ⟨p, by rw [hsl]; exact he, hp, hmax, hfirst, ?_⟩
  intro rows2 hne2 hlen2 heq
  rw [sliceNeg_flatten_eq_getLast rows2 v hv hlen2 hne2, hsl, heq]

/-- Claim C2 witness: a concrete three-position response over vocabulary size 3
whose last row is `[2, 7, 7]`; the selection is index 1 (lowest of the tied
maximal ids). -/
theorem greedy_argmax_last_row_witness :
    (0 < 3 ∧ ([[0, 0, 1], [0, 1, 0], [(2 : ℚ), 7, 7]] : List (List ℚ)) ≠ [] ∧
      (∀ r ∈ ([[0, 0, 1], [0, 1, 0], [(2 : ℚ), 7, 7]] : List (List ℚ)), r.length = 3)) ∧
    (∃ j : Nat,
      greedyArgmax (sliceNeg ([[0, 0, 1], [0, 1, 0], [(2 : ℚ), 7, 7]] : List (List ℚ)).flatten 3)
        = (j : Int) ∧ j < 3 ∧
      (∀ k, k < 3 →
        (([[0, 0, 1], [0, 1, 0], [(2 : ℚ), 7, 7]] : List (List ℚ)).getLast (by decide)).getD k 0
          ≤ (([[0, 0, 1], [0, 1, 0], [(2 : ℚ), 7, 7]] : List (List ℚ)).getLast (by decide)).getD j 0) ∧
      (∀ k, k < j →
        (([[0, 0, 1], [0, 1, 0], [(2 : ℚ), 7, 7]] : List (List ℚ)).getLast (by decide)).getD k 0
          < (([[0, 0, 1], [0, 1, 0], [(2 : ℚ), 7, 7]] : List (List ℚ)).getLast (by decide)).getD j 0) ∧
      (∀ (rows2 : List (List ℚ)) (hne2 : rows2 ≠ []),
        (∀ r ∈ rows2, r.length = 3) →
        rows2.getLast hne2
          = ([[0, 0, 1], [0, 1, 0], [(2 : ℚ), 7, 7]] : List (List ℚ)).getLast (by decide) →
        greedyArgmax (sliceNeg rows2.flatten 3)
          = greedyArgmax (sliceNeg ([[0, 0, 1], [0, 1, 0], [(2 : ℚ), 7, 7]] : List (List ℚ)).flatten 3))) :=
  ⟨⟨by decide, by decide, by decide⟩,
    greedy_argmax_last_row [[0, 0, 1], [0, 1, 0], [(2 : ℚ), 7, 7]] 3
      (by decide) (by decide) (by decide)⟩

/-- Claim C1 counterexample: part_001 `generate` is not an autoregressive
loop.  At the concrete prompt `[5, 9, 2]` and a concrete endpoint (three
positions, vocabulary size 3), no token sequence longer than the prompt is
ever fed to the inference session — the extended sequence the claim says is
re-fed does not occur; the session is run exactly once, on the prompt. -/
theorem generateRaw_no_refeed_counterexample :
    ¬ (∃ s ∈ (generateRaw
        (fun _ => ⟨[0, 0, 1, 0, 1, 0, 1, 0, 0], [1, 3, 3]⟩) [5, 9, 2]).2,
      3 < s.length) := by
  decide

/-- Claim C1 (amended): part_001 `generate` performs a single greedy decode
step.  For every endpoint and prompt, exactly one inference is run and its
input is the prompt itself (never an extended sequence); when the response is
a well-formed `[1, positions, v]` tensor, the returned id is the greedy argmax
of the final position's logits row. -/
theorem generateRaw_single_step (run : Feeds → OrtOutput) (tokens : List Nat)
    (rows : List (List ℚ)) (v : Nat) (hv : 0 < v) (hne : rows ≠ [])
    (hlen : ∀ r ∈ rows, r.length = v)
    (hdata : (run (buildFeeds tokens)).data = rows.flatten)
    (hdims : (run (buildFeeds tokens)).dims = [1, rows.length, v]) :
    (generateRaw run tokens).2 = [tokens] ∧
    (generateRaw run tokens).1 = greedyArgmax (rows.getLast hne) := by
  constructor
  · rfl
  · show greedyArgmax (sliceNeg (run (buildFeeds tokens)).data
        ((run (buildFeeds tokens)).dims.getD 2 0)) = greedyArgmax (rows.getLast hne)
    rw [hdata, hdims]
    show greedyArgmax (sliceNeg rows.flatten v) = greedyArgmax (rows.getLast hne)
    rw [sliceNeg_flatten_eq_getLast rows v hv hlen hne]

/-- Claim C1 witness: the amended single-step behaviour at the concrete prompt
`[5, 9, 2]` and the concrete endpoint of the counterexample, whose last row is
`[1, 0, 0]`, so the selected id is 0. -/
theorem generateRaw_single_step_witness :
    (0 < 3 ∧ ([[0, 0, 1], [0, 1, 0], [(1 : ℚ), 0, 0]] : List (List ℚ)) ≠ []) ∧
    (generateRaw (fun _ => ⟨[0, 0, 1, 0, 1, 0, 1, 0, 0], [1, 3, 3]⟩) [5, 9, 2]).2
      = [[5, 9, 2]] ∧
    (generateRaw (fun _ => ⟨[0, 0, 1, 0, 1, 0, 1, 0, 0], [1, 3, 3]⟩) [5, 9, 2]).1
      = greedyArgmax [(1 : ℚ), 0, 0] :=
  ⟨⟨by decide, by decide⟩,
    generateRaw_single_step
      (fun _ => ⟨[0, 0, 1, 0, 1, 0, 1, 0, 0], [1, 3, 3]⟩) [5, 9, 2]
      [[0, 0, 1], [0, 1, 0], [(1 : ℚ), 0, 0]] 3
      (by decide) (by decide) (by decide) (by decide) (by decide)⟩

/-! ### The design-level decode loop

The autoregressive decode loop of specification §4.2 is not present under
`src/`: `chat.js` and part_000 delegate generation (with its `max_new_tokens`
bound) to the external `model.generate` library call, and part_001 performs a
single decode step.  The definitions below are therefore modelled from the
specification text and the claims about `decode` are settled against them. -/

/-- Modelled from the spec: the stop reasons of the decode state machine
(§4.2), missing from `src/`. -/
inductive StopReason
  | EndOfSequence
  | MaxLengthReached
deriving DecidableEq

/-- Modelled from the spec: the error taxonomy of §7, missing from `src/`. -/
inductive DecodeError
  | InvalidPrompt
  | EndpointUnavailable
  | ShapeMismatch
  | EndpointTimeout
deriving DecidableEq

/-- Modelled from the spec: a `GenerationResult` (§3) — the newly generated
tokens and the stop reason. -/
structure GenerationResult where
  tokens : List Nat
  reason : StopReason
deriving DecidableEq

/-- Modelled from the spec: the per-call `DecodingConfig` (§3), restricted to
the greedy policy the claims are about (the sampling policy needs a real
softmax and a random source and is not used by any claim). -/
structure DecodingConfig where
  maxNewTokens : Nat
  endOfSequenceId : Option Nat
deriving DecidableEq

/-- Modelled from the spec: the Inference Endpoint Adapter (§4.1), missing
from `src/` — a recorded vocabulary size, the loaded flag of the underlying
session, and the black-box endpoint mapping a token sequence to per-position
logit rows. -/
structure Adapter where
  vocabSize : Nat
  loaded : Bool
  endpoint : List Nat → List (List ℚ)

/-- Modelled from the spec: `infer` (§4.1), missing from `src/` — signals
`EndpointUnavailable` when the session is not loaded and `ShapeMismatch` when
the response's last-axis size differs from the recorded vocabulary size;
otherwise returns the final position's logits row. -/
def infer (a : Adapter) (tokens : List Nat) : Except DecodeError (List ℚ) :=
  if a.loaded = false then .error .EndpointUnavailable
  else
    match (a.endpoint tokens).getLast? with
    | none => .error .ShapeMismatch
    | some row => if row.length = a.vocabSize then .ok row else .error .ShapeMismatch

/-- Modelled from the spec: greedy selection (§4.2 step 3) — argmax with ties
broken by the lowest id, reusing the part_001 scan. -/
def leastArgmax (row : List ℚ) : Nat := (greedyArgmax row).toNat

/-- Modelled from the spec: the decode steps (§4.2), missing from `src/`.
`fuel` is the number of tokens still allowed (`maxNewTokens` minus the tokens
appended so far); each step runs the adapter on the working sequence, selects
greedily, appends, and stops on the end-of-sequence id (checked first) or on
exhausting the budget.  The first component records every token sequence fed
to the adapter. -/
def decodeAux (a : Adapter) (eos : Option Nat) :
    Nat → List Nat → List Nat → List (List Nat) × Except DecodeError (List Nat × StopReason)
  | 0, _, gen => ([], .ok (gen, .MaxLengthReached))
  | fuel + 1, working, gen =>
    match infer a working with
    | .error e => ([working], .error e)
    | .ok row =>
      let sel := leastArgmax row
      let genNew := gen ++ [sel]
      if eos = some sel then ([working], .ok (genNew, .EndOfSequence))
      else
        let r := decodeAux a eos fuel (working ++ [sel]) genNew
        (working :: r.1, r.2)

/-- Modelled from the spec: `decode` (§4.2), missing from `src/` — rejects an
empty prompt with `InvalidPrompt`, otherwise runs the decode steps starting
from the prompt with an empty generated suffix.  The first component is the
trace of adapter invocations. -/
def decode (a : Adapter) (cfg : DecodingConfig) (promptTokens : List Nat) :
    List (List Nat) × Except DecodeError GenerationResult :=
  if promptTokens = [] then ([], .error .InvalidPrompt)
  else
    let r := decodeAux a cfg.endOfSequenceId cfg.maxNewTokens promptTokens []
    (r.1, r.2.map fun p => ⟨p.1, p.2⟩)

/-- When every adapter call succeeds and never selects the end-of-sequence id,
the decode steps consume the whole budget: the trace has exactly `fuel`
entries and exactly `fuel` tokens are appended, stopping on
`MaxLengthReached`. -/
lemma decodeAux_all_ok (a : Adapter) (eos : Option Nat)
    (h : ∀ w, ∃ row, infer a w = .ok row ∧ eos ≠ some (leastArgmax row)) :
    ∀ (fuel : Nat) (working gen : List Nat), ∃ tr g2,
      decodeAux a eos fuel working gen = (tr, .ok (gen ++ g2, .MaxLengthReached))
      ∧ tr.length = fuel ∧ g2.length = fuel := by
  intro fuel
  induction fuel with
  | zero =>
    intro working gen
    exact ⟨[], [], by simp [decodeAux], rfl, rfl⟩
  | succ n ih =>
    intro working gen
    obtain ⟨row, hrow, hne⟩ := h working
    obtain ⟨tr, g2, he, htr, hg⟩ := ih (working ++ [leastArgmax row]) (gen ++ [leastArgmax row])
    refine ⟨working :: tr, leastArgmax row :: g2, ?_, by simp [htr], by simp [hg]⟩
    simp only [decodeAux, hrow, if_neg hne, he]
    simp

/-- Claim C4: for every non-empty prompt, whenever every adapter call succeeds
and the end-of-sequence id is never produced, `decode` terminates after at
most `maxNewTokens` steps — here exactly `maxNewTokens` adapter invocations,
each appending one token — returning `MaxLengthReached`. -/
theorem decode_max_length_termination (a : Adapter) (cfg : DecodingConfig)
    (p : List Nat) (hp : p ≠ [])
    (h : ∀ w, ∃ row, infer a w = .ok row
      ∧ cfg.endOfSequenceId ≠ some (leastArgmax row)) :
    ∃ g, (decode a cfg p).2 = .ok ⟨g, .MaxLengthReached⟩
      ∧ g.length = cfg.maxNewTokens
      ∧ (decode a cfg p).1.length = cfg.maxNewTokens := by
  obtain ⟨tr, g2, he, htr, hg⟩ :=
    decodeAux_all_ok a cfg.endOfSequenceId h cfg.maxNewTokens p []
  refine ⟨g2, ?_, hg, ?_⟩
  · simp [decode, if_neg hp, he, Except.map]
  · simp [decode, if_neg hp, he, htr]

/-- Claim C4 witness: vocabulary size 2, an endpoint always answering the
single row `[0, 1]` (argmax 1, never the configured end id 0), a budget of 2
new tokens and the prompt `[3]`. -/
theorem decode_max_length_termination_witness :
    ∃ g, (decode ⟨2, true, fun _ => [[0, 1]]⟩ ⟨2, some 0⟩ [3]).2
        = .ok ⟨g, .MaxLengthReached⟩
      ∧ g.length = 2
      ∧ (decode ⟨2, true, fun _ => [[0, 1]]⟩ ⟨2, some 0⟩ [3]).1.length = 2 :=
  decode_max_length_termination ⟨2, true, fun _ => [[0, 1]]⟩ ⟨2, some 0⟩ [3]
    (by decide) (fun w => ⟨[0, 1], rfl, by decide⟩)

/-- Claim C5: under the greedy policy, `decode` is deterministic — two calls
with an identical prompt, identical configuration and extensionally identical
deterministic endpoints produce identical results (trace and
`GenerationResult` alike). -/
theorem decode_greedy_deterministic (a1 a2 : Adapter) (cfg : DecodingConfig)
    (p : List Nat) (hv : a1.vocabSize = a2.vocabSize) (hl : a1.loaded = a2.loaded)
    (he : ∀ w, a1.endpoint w = a2.endpoint w) :
    decode a1 cfg p = decode a2 cfg p := by
  have hinf : ∀ w, infer a1 w = infer a2 w := by
    intro w
    unfold infer
    rw [hv, hl, he w]
  have haux : ∀ (fuel : Nat) (working gen : List Nat),
      decodeAux a1 cfg.endOfSequenceId fuel working gen
        = decodeAux a2 cfg.endOfSequenceId fuel working gen := by
    intro fuel
    induction fuel with
    | zero => intro working gen; rfl
    | succ n ih =>
      intro working gen
      simp only [decodeAux, hinf working]
      cases infer a2 working with
      | error e => rfl
      | ok row => simp only [ih]
  unfold decode
  rw [haux]

/-- Claim C5 witness: two adapters with separately written but extensionally
equal fields give identical decode outcomes on the prompt `[3]`. -/
theorem decode_greedy_deterministic_witness :
    decode ⟨2, true, fun _ => [[0, 1]]⟩ ⟨2, none⟩ [3]
      = decode ⟨2, true, fun _ => [[(0 : ℚ)] ++ [1]]⟩ ⟨2, none⟩ [3] := by
  exact decode_greedy_deterministic
    ⟨2, true, fun _ => [[0, 1]]⟩ ⟨2, true, fun _ => [[(0 : ℚ)] ++ [1]]⟩
    ⟨2, none⟩ [3] rfl rfl (fun w => rfl)

/-- Claim C6: with `maxNewTokens = 0` and a non-empty prompt, `decode` returns
the empty result with reason `MaxLengthReached` and the empty adapter-call
trace — the endpoint is never invoked (the outcome does not depend on the
adapter at all). -/
theorem decode_zero_budget (a : Adapter) (cfg : DecodingConfig) (p : List Nat)
    (hp : p ≠ []) (hz : cfg.maxNewTokens = 0) :
    decode a cfg p = ([], .ok ⟨[], .MaxLengthReached⟩) := by
  simp [decode, if_neg hp, hz, decodeAux, Except.map]

/-- Claim C6 witness at the concrete prompt `[3]` and budget 0. -/
theorem decode_zero_budget_witness :
    ([3] : List Nat) ≠ [] ∧
    decode ⟨2, true, fun _ => [[0, 1]]⟩ ⟨0, none⟩ [3]
      = ([], .ok ⟨[], .MaxLengthReached⟩) :=
  ⟨by decide, decode_zero_budget ⟨2, true, fun _ => [[0, 1]]⟩ ⟨0, none⟩ [3]
    (by decide) rfl⟩

/-- Claim C7: an empty prompt token sequence is rejected with `InvalidPrompt`:
no generation is performed and the adapter-call trace is empty, for every
adapter and configuration. -/
theorem decode_empty_prompt_invalid (a : Adapter) (cfg : DecodingConfig) :
    decode a cfg [] = ([], .error .InvalidPrompt) := by
  simp [decode]

/-- Claim C8: whenever the endpoint's response at the prompt has a last-axis
size different from the adapter's recorded vocabulary size, `infer` signals
`ShapeMismatch`, `decode` aborts immediately re-signaling it, and the only
sequence ever fed is the prompt itself — the working sequence is unchanged
from before that step. -/
theorem decode_shape_mismatch_aborts (a : Adapter) (cfg : DecodingConfig)
    (p : List Nat) (hp : p ≠ []) (hl : a.loaded = true)
    (hshape : ∀ row, (a.endpoint p).getLast? = some row → row.length ≠ a.vocabSize)
    (hfuel : cfg.maxNewTokens ≠ 0) :
    infer a p = .error .ShapeMismatch ∧
    decode a cfg p = ([p], .error .ShapeMismatch) := by
  have hinf : infer a p = .error .ShapeMismatch := by
    unfold infer
    rw [hl]
    simp only [Bool.true_eq_false, if_false]
    cases hlast : (a.endpoint p).getLast? with
    | none => rfl
    | some row => simp [if_neg (hshape row hlast)]
  refine ⟨hinf, ?_⟩
  obtain ⟨n, hn⟩ : ∃ n, cfg.maxNewTokens = n + 1 :=
    ⟨cfg.maxNewTokens - 1, by omega⟩
  simp [decode, if_neg hp, hn, decodeAux, hinf, Except.map]

/-- Claim C8 witness: the spec's §8 scenario — the adapter records vocabulary
size 50 but the endpoint returns a single row of length 10, prompt
`[5, 9, 2]`, budget 3. -/
theorem decode_shape_mismatch_aborts_witness :
    infer ⟨50, true, fun _ => [List.replicate 10 (0 : ℚ)]⟩ [5, 9, 2]
      = .error .ShapeMismatch ∧
    decode ⟨50, true, fun _ => [List.replicate 10 (0 : ℚ)]⟩ ⟨3, none⟩ [5, 9, 2]
      = ([[5, 9, 2]], .error .ShapeMismatch) :=
  decode_shape_mismatch_aborts ⟨50, true, fun _ => [List.replicate 10 (0 : ℚ)]⟩
    ⟨3, none⟩ [5, 9, 2] (by decide) rfl
    (fun row hrow => by
      have : row = List.replicate 10 (0 : ℚ) := by
        simpa using hrow.symm
      rw [this]
      decide)
    (by decide)

/-! ### Post-processing of the library generation and the session embedding -/

/-- A transformers.js tensor as chat.js sees `inputs.input_ids`: the flat
token data and the shape vector `dims`.  The library's `size` property is the
scalar total element count, not the shape (the shape lives in `dims`). -/
structure JsTensor where
  data : List Nat
  dims : List Nat

/-- The library's scalar `size` property: the total element count. -/
def JsTensor.size (t : JsTensor) : Nat := t.data.length

/-- JavaScript property access `n[1]` on a plain number: always `undefined`,
modelled as `none`. -/
def numberIndex (_n : Nat) (_i : Nat) : Option Nat := none

/-- JavaScript coercion of `slice`'s start argument: an `undefined` start
coerces to 0 (`ToIntegerOrInfinity(undefined) = 0`), a number stands. -/
def sliceStart : Option Nat → Nat
  | none => 0
  | some k => k

/-- Embedding of chat.js line 72 / part_000 line 83:
`outputs[0].slice(inputs.input_ids.size[1])`.  Since `size` is a scalar,
`size[1]` is `undefined` and the slice starts at 0, keeping the whole
sequence. -/
def generatedTokens (input_ids : JsTensor) (outputs0 : List Nat) : List Nat :=
  outputs0.drop (sliceStart (numberIndex input_ids.size 1))

/-- Claim C9 evaluated at the failing input: with the tokenized prompt
`[5, 9]` and a library output whose completed sequence is `[5, 9] ++ [7]`,
the slice at chat.js line 72 / part_000 line 83 returns the prompt-inclusive
`[5, 9, 7]`, not the newly generated suffix `[7]` — `size[1]` is `undefined`
(the shape is `dims`, `size` is a scalar), so `slice(undefined)` starts at 0
and the prompt tokens are not excluded, against the claim and the lines'
own stated intent of decoding the generated tokens only. -/
theorem generatedTokens_keeps_prompt :
    generatedTokens ⟨[5, 9], [1, 2]⟩ ([5, 9] ++ [7]) = [5, 9, 7] ∧
    generatedTokens ⟨[5, 9], [1, 2]⟩ ([5, 9] ++ [7]) ≠ [7] := by
  constructor
  · rfl
  · decide

/-- Embedding of part_000 `extractEmbedding` line 108: the feature text is the
whitespace join of the first 512 samples (`signal.slice(0, 512).join(" ")`). -/
def featureText (signal : List ℚ) : String :=
  String.intercalate " " ((signal.take 512).map toString)

/-- Embedding of part_000 `extractEmbedding` lines 107–114: the embedding is
whatever the embedding model returns on the feature text. -/
def extractEmbedding (encode : String → List ℚ) (signal : List ℚ) : List ℚ :=
  encode (featureText signal)

/-- Two lists agreeing pointwise below `n` have equal `take n` prefixes. -/
lemma take_eq_of_agree_below {α : Type} : ∀ (n : Nat) (s1 s2 : List α),
    (∀ i, i < n → s1[i]? = s2[i]?) → s1.take n = s2.take n
  | 0, _, _, _ => rfl
  | n + 1, [], [], _ => rfl
  | n + 1, [], b :: s2, h => by
    have h0 := h 0 (Nat.succ_pos n)
    simp at h0
  | n + 1, a :: s1, [], h => by
    have h0 := h 0 (Nat.succ_pos n)
    simp at h0
  | n + 1, a :: s1, b :: s2, h => by
    have h0 := h 0 (Nat.succ_pos n)
    simp only [List.getElem?_cons_zero, Option.some.injEq] at h0
    have ht := take_eq_of_agree_below n s1 s2 (fun i hi => by
      have := h (i + 1) (Nat.succ_lt_succ hi)
      simpa using this)
    simp [List.take_succ_cons, h0, ht]

/-- Claim C10: the session-embedding extraction depends only on the first 512
elements of the signal — any two signals agreeing on indices 0 through 511
produce the identical whitespace-joined feature text and hence the identical
input to (and output of) the embedding model, whatever later elements hold. -/
theorem extractEmbedding_first_512_only (s1 s2 : List ℚ)
    (h : ∀ i, i < 512 → s1[i]? = s2[i]?) :
    featureText s1 = featureText s2 ∧
      ∀ encode : String → List ℚ, extractEmbedding encode s1 = extractEmbedding encode s2 := by
  have ht : s1.take 512 = s2.take 512 := take_eq_of_agree_below 512 s1 s2 h
  have hft : featureText s1 = featureText s2 := by
    unfold featureText
    rw [ht]
  exact ⟨hft, fun encode => by unfold extractEmbedding; rw [hft]⟩

/-- Claim C10 witness: a 512-sample signal and its extension by one extra
sample (the 2560-sample simulation truncated differently past index 511)
agree below index 512 and get the same feature text. -/
theorem extractEmbedding_first_512_only_witness :
    (∀ i, i < 512 →
      (List.replicate 512 (1 : ℚ))[i]? = (List.replicate 512 (1 : ℚ) ++ [7])[i]?) ∧
    featureText (List.replicate 512 (1 : ℚ))
      = featureText (List.replicate 512 (1 : ℚ) ++ [7]) := by
  have h : ∀ i, i < 512 →
      (List.replicate 512 (1 : ℚ))[i]? = (List.replicate 512 (1 : ℚ) ++ [7])[i]? := by
    intro i hi
    exact (List.getElem?_append_left (by rw [List.length_replicate]; exact hi)).symm
  exact ⟨h, (extractEmbedding_first_512_only _ _ h).1⟩

end NeuroChat
